import Mathlib

/-!
Verification development for the home-monitor capture-and-broadcast engine.

The definitions below are a shallow embedding of the Go sources:
bounded subscriber queues model Go buffered channels (a `select` with a
`default` branch becomes a total function on the queue value), the MJPEG
demux loop is embedded as a fuel-indexed recursion over byte lists, and
the stateful managers (capture manager, RTMP push-stream manager, HLS
output manager, RTP forwarder) become explicit state-passing functions.
Bytes are modelled as natural numbers; frames and audio blocks are byte
lists.
-/

namespace HomeMonitor

/-- A bounded FIFO queue modelling a Go buffered channel of byte buffers.
`buf` holds the buffered items, head = oldest; `cap` is the channel
capacity (`make(chan []byte, cap)`). -/
structure BoundedQueue where
  buf : List (List Nat)
  cap : Nat
  deriving Repr, DecidableEq

/-- Non-blocking send (`select { case ch <- v: ... default: ... }`):
succeeds iff the buffer is not full. -/
def trySend (q : BoundedQueue) (v : List Nat) : Option BoundedQueue :=
  if q.buf.length < q.cap then some { q with buf := q.buf ++ [v] } else none

/-- Non-blocking receive (`select { case <-ch: ... default: ... }`):
removes and returns the oldest buffered item when one exists. -/
def tryRecv (q : BoundedQueue) : BoundedQueue × Option (List Nat) :=
  match q.buf with
  | [] => (q, none)
  | x :: t => ({ q with buf := t }, some x)

/-- Effect of `FFmpegCapturer.broadcastFrame` on one subscriber queue:
try to send; on a full queue drop the oldest buffered item
(non-blocking receive) and retry the send once; if the retry also
fails, the new frame is dropped for this subscriber. -/
def broadcastFrameToQueue (q : BoundedQueue) (frame : List Nat) : BoundedQueue :=
  match trySend q frame with
  | some q2 => q2
  | none =>
    let q2 := (tryRecv q).1
    match trySend q2 frame with
    | some q3 => q3
    | none => q2

/-- Effect of `FFmpegCapturer.broadcastAudio` on one subscriber queue:
try to send; on a full queue the new audio block is simply dropped
(the `default` branch does nothing). -/
def broadcastAudioToQueue (q : BoundedQueue) (audio : List Nat) : BoundedQueue :=
  match trySend q audio with
  | some q2 => q2
  | none => q

/-- Capacity of a frame subscriber queue (`make(chan []byte, 30)`). -/
def frameQueueCap : Nat := 30

/-- Capacity of an audio subscriber queue (`make(chan []byte, 100)`). -/
def audioQueueCap : Nat := 100

/-- Embedding of `findBytes(data, pattern)`: index of the first
occurrence of `pattern` in `data`, or `none` (the Go code returns -1).
The Go loop scans `i = 0 .. len(data)-len(pattern)` and compares
`pattern` against `data[i:]`. -/
def findBytes (data pattern : List Nat) : Option Nat :=
  if pattern.length = 0 ∨ data.length < pattern.length then none
  else (List.range (data.length - pattern.length + 1)).find?
    (fun i => (data.drop i).take pattern.length == pattern)

/-- JPEG start-of-image marker scanned for by `readMJPEGStream`. -/
def jpegStart : List Nat := [0xFF, 0xD8]

/-- JPEG end-of-image marker scanned for by `readMJPEGStream`. -/
def jpegEnd : List Nat := [0xFF, 0xD9]

/-- Inner parse loop of `readMJPEGStream`, fuel-indexed: find the start
marker, find the end marker at or after it, emit
`frameBuffer[startIdx:endIdx]` with `endIdx := startRel + endRel + 2`,
advance past the emitted frame, and repeat. One unit of fuel per
emitted frame; each emitted frame consumes at least two bytes, so fuel
equal to the buffer length never runs out. -/
def parseFrames : Nat → List Nat → List (List Nat) × List Nat
  | 0, buf => ([], buf)
  | fuel + 1, buf =>
    match findBytes buf jpegStart with
    | none => ([], buf)
    | some startIdx =>
      match findBytes (buf.drop startIdx) jpegEnd with
      | none => ([], buf)
      | some endRel =>
        ((buf.drop startIdx).take (endRel + 2)
            :: (parseFrames fuel (buf.drop (endRel + startIdx + 2))).1,
          (parseFrames fuel (buf.drop (endRel + startIdx + 2))).2)

/-- Ceiling above which `readMJPEGStream` truncates its working buffer
(`len(frameBuffer) > 2*1024*1024`). -/
def bufferCeiling : Nat := 2 * 1024 * 1024

/-- Tail kept on truncation
(`frameBuffer = frameBuffer[len(frameBuffer)-1024*1024:]`). -/
def bufferTail : Nat := 1024 * 1024

/-- Buffer remaining after the inner parse loop of one outer iteration
of `readMJPEGStream`, before the overflow truncation. -/
def postParse (frameBuffer chunk : List Nat) : List Nat :=
  (parseFrames (frameBuffer ++ chunk).length (frameBuffer ++ chunk)).2

/-- One outer-loop iteration of `readMJPEGStream` after a successful
read of `chunk`: append the chunk, run the parse loop to exhaustion,
then truncate the working buffer to the most recent `bufferTail` bytes
if it exceeds `bufferCeiling`. Returns (emitted frames, new buffer). -/
def processChunk (frameBuffer chunk : List Nat) : List (List Nat) × List Nat :=
  ((parseFrames (frameBuffer ++ chunk).length (frameBuffer ++ chunk)).1,
    if bufferCeiling < (postParse frameBuffer chunk).length
    then (postParse frameBuffer chunk).drop
        ((postParse frameBuffer chunk).length - bufferTail)
    else postParse frameBuffer chunk)

/-- Working buffer of the demux after processing a sequence of read
chunks, starting from the empty buffer. -/
def demuxBuffer (chunks : List (List Nat)) : List Nat :=
  chunks.foldl (fun b c => (processChunk b c).2) []

/-- All frames emitted by the demux over a sequence of read chunks, in
order. -/
def demuxFrames (chunks : List (List Nat)) : List (List Nat) :=
  (chunks.foldl
    (fun acc c =>
      let st := processChunk acc.2 c
      (acc.1 ++ st.1, st.2))
    (([] : List (List Nat)), ([] : List Nat))).1

/-- True when the buffer still holds a complete frame: a start marker
with an end marker at or after it, exactly the condition the parse loop
checks before emitting. -/
def hasCompleteFrame (buf : List Nat) : Bool :=
  match findBytes buf jpegStart with
  | none => false
  | some startIdx => (findBytes (buf.drop startIdx) jpegEnd).isSome

/-- Effect of `broadcastFrame` on the whole frame-subscriber table:
each subscriber queue is updated independently (the Go loop iterates
over the map and touches only the current subscriber channel). -/
def broadcastFrame (subs : List (String × BoundedQueue)) (frame : List Nat) :
    List (String × BoundedQueue) :=
  subs.map (fun p => (p.1, broadcastFrameToQueue p.2 frame))

/-- Effect of `broadcastAudio` on the whole audio-subscriber table. -/
def broadcastAudio (subs : List (String × BoundedQueue)) (audio : List Nat) :
    List (String × BoundedQueue) :=
  subs.map (fun p => (p.1, broadcastAudioToQueue p.2 audio))

/-- Association-list lookup, modelling a read of a Go map. -/
def alistFind (k : String) : List (String × α) → Option α
  | [] => none
  | (k2, v) :: t => if k2 = k then some v else alistFind k t

/-- Association-list insert/replace, modelling `m[k] = v` on a Go map. -/
def alistInsert (k : String) (v : α) : List (String × α) → List (String × α)
  | [] => [(k, v)]
  | (k2, v2) :: t => if k2 = k then (k, v) :: t else (k2, v2) :: alistInsert k v t

/-- Association-list removal, modelling `delete(m, k)` on a Go map. -/
def alistErase (k : String) : List (String × α) → List (String × α)
  | [] => []
  | (k2, v2) :: t => if k2 = k then t else (k2, v2) :: alistErase k t

/-- State of one `FFmpegCapturer` relevant to lifecycle and
subscription claims. Each subscriber channel is identified by a unique
token handed out at subscription time; `closedTokens` is the log of
`close(ch)` events, so a channel closed twice would appear twice. -/
structure CapturerState where
  running : Bool
  lastFrame : Option (List Nat)
  frameSubscribers : List (String × Nat)
  audioSubscribers : List (String × Nat)
  nextToken : Nat
  closedTokens : List Nat
  deriving Repr, DecidableEq

/-- Fresh capturer as built by `NewAVCapturer`. -/
def initialCapturer : CapturerState :=
  { running := false, lastFrame := none, frameSubscribers := [],
    audioSubscribers := [], nextToken := 0, closedTokens := [] }

/-- Embedding of `SubscribeFrames`: allocate a fresh channel (token)
and store it in the frame-subscriber table under the given id. -/
def subscribeFrames (id : String) (s : CapturerState) : CapturerState × Nat :=
  ({ s with frameSubscribers := alistInsert id s.nextToken s.frameSubscribers,
            nextToken := s.nextToken + 1 }, s.nextToken)

/-- Embedding of `UnsubscribeFrames`: when the id is present, close its
channel (log the token) and delete the entry; otherwise do nothing. -/
def unsubscribeFrames (id : String) (s : CapturerState) : CapturerState :=
  match alistFind id s.frameSubscribers with
  | some tok =>
    { s with frameSubscribers := alistErase id s.frameSubscribers,
             closedTokens := s.closedTokens ++ [tok] }
  | none => s

/-- Embedding of `SubscribeAudio`. -/
def subscribeAudio (id : String) (s : CapturerState) : CapturerState × Nat :=
  ({ s with audioSubscribers := alistInsert id s.nextToken s.audioSubscribers,
            nextToken := s.nextToken + 1 }, s.nextToken)

/-- Embedding of `UnsubscribeAudio`. -/
def unsubscribeAudio (id : String) (s : CapturerState) : CapturerState :=
  match alistFind id s.audioSubscribers with
  | some tok =>
    { s with audioSubscribers := alistErase id s.audioSubscribers,
             closedTokens := s.closedTokens ++ [tok] }
  | none => s

/-- Embedding of `FFmpegCapturer.Stop`: when not running, return
immediately; otherwise close every frame and audio subscriber channel,
clear both tables, and clear the running flag. -/
def capturerStop (s : CapturerState) : CapturerState :=
  if s.running = false then s
  else
    { s with frameSubscribers := [], audioSubscribers := [],
             closedTokens := s.closedTokens
               ++ s.frameSubscribers.map Prod.snd
               ++ s.audioSubscribers.map Prod.snd,
             running := false }

/-- Result of a start call. -/
inductive StartResult
  | ok
  | spawnFailure
  deriving Repr, DecidableEq

/-- Embedding of `FFmpegCapturer.Start`: an already-running capturer
returns success immediately without spawning; otherwise the external
process is spawned (`spawnOk` abstracts whether `startCapture`
succeeds) and the running flag is set. The returned Bool records
whether a process was spawned by this call. -/
def capturerStart (s : CapturerState) (spawnOk : Bool) :
    StartResult × CapturerState × Bool :=
  if s.running then (.ok, s, false)
  else if spawnOk then (.ok, { s with running := true }, true)
  else (.spawnFailure, s, false)

/-- One lifecycle/subscription operation on a capturer. -/
inductive CapOp
  | subFrames (id : String)
  | unsubFrames (id : String)
  | subAudio (id : String)
  | unsubAudio (id : String)
  | startOp
  | stopOp
  deriving Repr, DecidableEq

/-- Apply one operation. -/
def applyCapOp (s : CapturerState) : CapOp → CapturerState
  | .subFrames id => (subscribeFrames id s).1
  | .unsubFrames id => unsubscribeFrames id s
  | .subAudio id => (subscribeAudio id s).1
  | .unsubAudio id => unsubscribeAudio id s
  | .startOp => (capturerStart s true).2.1
  | .stopOp => capturerStop s

/-- Run a sequence of operations from the fresh capturer. The Go code
serializes these operations under the capturer mutexes, so a sequential
operation list models any interleaving. -/
def runCapOps (ops : List CapOp) : CapturerState :=
  ops.foldl applyCapOp initialCapturer

/-- Tokens of all currently registered subscriber channels. -/
def capTokens (s : CapturerState) : List Nat :=
  s.frameSubscribers.map Prod.snd ++ s.audioSubscribers.map Prod.snd

/-- Well-formedness invariant of a capturer state: no channel has been
closed twice, live channels are pairwise distinct, live channels have
not been closed, and all tokens are below the allocation counter. -/
def GoodState (s : CapturerState) : Prop :=
  s.closedTokens.Nodup ∧ (capTokens s).Nodup ∧
  (∀ t ∈ capTokens s, t ∉ s.closedTokens) ∧
  (∀ t ∈ capTokens s, t < s.nextToken) ∧
  (∀ t ∈ s.closedTokens, t < s.nextToken)

/-- Outcome of a `GetFrame` call. -/
inductive GetFrameOutcome
  | frame (f : List Nat)
  | notRunningError
  | timeoutError
  deriving Repr, DecidableEq

/-- Wait window of `GetFrame` (`time.After(3 * time.Second)`). -/
def getFrameTimeoutSeconds : Nat := 3

/-- Subscriber id used by the temporary snapshot subscription
(`snapshot_<nanos>` in the Go code; the value is irrelevant). -/
def snapshotSubId : String := "snapshot"

/-- Trace of the externally visible effects of one `GetFrame` call. -/
structure GetFrameTrace where
  subscribed : Bool
  unsubscribed : Bool
  deriving Repr, DecidableEq

/-- Embedding of `FFmpegCapturer.GetFrame`: fail when not running;
return the cached last frame when present; otherwise create a
temporary subscription, wait for a frame for at most
`getFrameTimeoutSeconds` (`arrival` abstracts whether a frame reaches
the temporary channel inside the window), remove the subscription in
all cases (the `defer`), and report a timeout error when nothing
arrived. -/
def getFrame (s : CapturerState) (arrival : Option (List Nat)) :
    GetFrameOutcome × GetFrameTrace × CapturerState :=
  if s.running = false then (.notRunningError, ⟨false, false⟩, s)
  else
    match s.lastFrame with
    | some f => (.frame f, ⟨false, false⟩, s)
    | none =>
      let s1 := (subscribeFrames snapshotSubId s).1
      let s2 := unsubscribeFrames snapshotSubId s1
      match arrival with
      | some f => (.frame f, ⟨true, true⟩, s2)
      | none => (.timeoutError, ⟨true, true⟩, s2)

/-- Capture-manager view of one capturer as seen by the sink managers. -/
structure CapturerInfo where
  running : Bool
  hasAudio : Bool
  deriving Repr, DecidableEq

/-- A push-stream `Streamer` (or an `HLSOutput`), reduced to its
running flag. -/
structure StreamerState where
  running : Bool
  deriving Repr, DecidableEq

/-- Errors returned by the sink-pipeline start paths. -/
inductive StreamError
  | alreadyActive
  | cameraNotFound
  | capturerNotFound
  | capturerNotActive
  | spawnFailure
  deriving Repr, DecidableEq

/-- State of the RTMP push-stream `Manager`. `aliveProcesses` counts
external transcoding processes spawned and still alive; `subsCreated`
counts subscriptions made on capturers. -/
structure RTMPManagerState where
  cameras : List String
  capturers : List (String × CapturerInfo)
  streamers : List (String × StreamerState)
  frameFeeds : List String
  aliveProcesses : Nat
  subsCreated : Nat
  deriving Repr, DecidableEq

/-- Embedding of `Manager.StartStream`: reject when a running streamer
already exists for the camera; reject when the camera id is not
registered; reject when the capture manager has no capturer for the
id; reject when the capturer is not running; otherwise spawn the
transcoding process (`spawnOk` abstracts `streamer.Start`), register
the feed, subscribe to frames (and to audio when the capturer has
audio), and record the streamer. -/
def startStream (m : RTMPManagerState) (cameraID : String) (spawnOk : Bool) :
    Option StreamError × RTMPManagerState :=
  if (match alistFind cameraID m.streamers with
      | some st => st.running
      | none => false)
  then (some .alreadyActive, m)
  else if cameraID ∉ m.cameras then (some .cameraNotFound, m)
  else
    match alistFind cameraID m.capturers with
    | none => (some .capturerNotFound, m)
    | some info =>
      if info.running = false then (some .capturerNotActive, m)
      else if spawnOk then
        (none,
          { m with
            streamers := alistInsert cameraID ⟨true⟩ m.streamers,
            frameFeeds := cameraID :: m.frameFeeds,
            aliveProcesses := m.aliveProcesses + 1,
            subsCreated := m.subsCreated + (if info.hasAudio then 2 else 1) })
      else (some .spawnFailure, m)

/-- State of the `HLSOutputManager`. -/
structure HLSManagerState where
  cameras : List String
  capturers : List (String × CapturerInfo)
  outputs : List (String × StreamerState)
  aliveProcesses : Nat
  deriving Repr, DecidableEq

/-- Embedding of `HLSOutputManager.StartOutput`: reject when a running
output already exists for the camera; reject when the camera id is not
registered; reject when the capture manager has no capturer; otherwise
start the `HLSOutput` (`spawnOk` abstracts `output.Start`), which
spawns the transcoding process and registers the output. Unlike
`Manager.StartStream`, the source performs no `IsRunning` check on the
capturer. -/
def hlsStartOutput (m : HLSManagerState) (cameraID : String) (spawnOk : Bool) :
    Option StreamError × HLSManagerState :=
  if (match alistFind cameraID m.outputs with
      | some o => o.running
      | none => false)
  then (some .alreadyActive, m)
  else if cameraID ∉ m.cameras then (some .cameraNotFound, m)
  else
    match alistFind cameraID m.capturers with
    | none => (some .capturerNotFound, m)
    | some _info =>
      if spawnOk then
        (none, { m with outputs := alistInsert cameraID ⟨true⟩ m.outputs,
                        aliveProcesses := m.aliveProcesses + 1 })
      else (some .spawnFailure, m)

/-- Embedding of `RTPForwarder.AddSubscriber`: unguarded increment of
the reference count (a Go `int`, hence `Int` here). -/
def addSubscriber (subs : Int) : Int := subs + 1

/-- Embedding of `RTPForwarder.RemoveSubscriber`: unguarded decrement;
returns (returned value, new count). -/
def removeSubscriber (subs : Int) : Int × Int := (subs - 1, subs - 1)

/-- One reference-count operation on the RTP bridge. -/
inductive SubOp
  | add
  | remove
  deriving Repr, DecidableEq

/-- Apply one reference-count operation. -/
def applySubOp (subs : Int) : SubOp → Int
  | .add => addSubscriber subs
  | .remove => (removeSubscriber subs).2

/-- The sequence of counts observed while running `ops` from a fresh
forwarder (count 0), including the initial count. -/
def subCounts (ops : List SubOp) : List Int :=
  ops.scanl applySubOp 0

/-- Number of AddSubscriber calls in an operation list. -/
def countAdds : List SubOp → Nat
  | [] => 0
  | .add :: t => countAdds t + 1
  | .remove :: t => countAdds t

/-- Number of RemoveSubscriber calls in an operation list. -/
def countRemoves : List SubOp → Nat
  | [] => 0
  | .add :: t => countRemoves t
  | .remove :: t => countRemoves t + 1

/-! Helper lemmas about association lists. -/

lemma alistFind_alistInsert_self (k : String) (v : α) (l : List (String × α)) :
    alistFind k (alistInsert k v l) = some v := by
  induction l with
  | nil => simp [alistInsert, alistFind]
  | cons p t ih =>
    obtain ⟨k2, v2⟩ := p
    by_cases h : k2 = k
    · simp [alistInsert, alistFind, h]
    · simp [alistInsert, alistFind, h, ih]

lemma alistErase_alistInsert_of_find_none (k : String) (v : α)
    (l : List (String × α)) (h : alistFind k l = none) :
    alistErase k (alistInsert k v l) = l := by
  induction l with
  | nil => simp [alistInsert, alistErase]
  | cons p t ih =>
    obtain ⟨k2, v2⟩ := p
    by_cases hk : k2 = k
    · simp [alistFind, hk] at h
    · simp [alistFind, hk] at h
      simp [alistInsert, alistErase, hk, ih h]

lemma alistFind_some_mem_snd {k : String} {v : α} {l : List (String × α)}
    (h : alistFind k l = some v) : v ∈ l.map Prod.snd := by
  induction l with
  | nil => simp [alistFind] at h
  | cons p t ih =>
    obtain ⟨k2, v2⟩ := p
    by_cases hk : k2 = k
    · simp [alistFind, hk] at h
      simp [h]
    · simp [alistFind, hk] at h
      simp [ih h]

lemma mem_snd_alistInsert {t : α} {k : String} {v : α} {l : List (String × α)}
    (h : t ∈ (alistInsert k v l).map Prod.snd) :
    t = v ∨ t ∈ l.map Prod.snd := by
  induction l with
  | nil =>
    simp only [alistInsert, List.map_cons, List.map_nil] at h
    rcases List.mem_cons.mp h with h | h
    · exact Or.inl h
    · exact absurd h (List.not_mem_nil t)
  | cons p tl ih =>
    obtain ⟨k2, v2⟩ := p
    by_cases hk : k2 = k
    · simp only [alistInsert, if_pos hk, List.map_cons] at h
      rcases List.mem_cons.mp h with h | h
      · exact Or.inl h
      · exact Or.inr (by
          simp only [List.map_cons]
          exact List.mem_cons_of_mem _ h)
    · simp only [alistInsert, if_neg hk, List.map_cons] at h
      rcases List.mem_cons.mp h with h | h
      · exact Or.inr (by
          simp only [List.map_cons]
          exact h ▸ List.mem_cons_self _ _)
      · rcases ih h with h2 | h2
        · exact Or.inl h2
        · exact Or.inr (by
            simp only [List.map_cons]
            exact List.mem_cons_of_mem _ h2)

lemma nodup_snd_alistInsert {k : String} {v : α} {l : List (String × α)}
    (hn : (l.map Prod.snd).Nodup) (hv : v ∉ l.map Prod.snd) :
    ((alistInsert k v l).map Prod.snd).Nodup := by
  induction l with
  | nil => simp [alistInsert]
  | cons p t ih =>
    obtain ⟨k2, v2⟩ := p
    simp only [List.map_cons, List.nodup_cons] at hn
    have hvne : v ≠ v2 := by
      intro he
      exact hv (by simp only [List.map_cons]; exact he ▸ List.mem_cons_self _ _)
    have hvt : v ∉ t.map Prod.snd := by
      intro hm
      exact hv (by simp only [List.map_cons]; exact List.mem_cons_of_mem _ hm)
    by_cases hk : k2 = k
    · simp only [alistInsert, if_pos hk, List.map_cons, List.nodup_cons]
      exact ⟨hvt, hn.2⟩
    · simp only [alistInsert, if_neg hk, List.map_cons, List.nodup_cons]
      refine ⟨?_, ih hn.2 hvt⟩
      intro hmem
      rcases mem_snd_alistInsert hmem with h2 | h2
      · exact hvne h2.symm
      · exact hn.1 h2

lemma perm_cons_alistErase {k : String} {v : α} {l : List (String × α)}
    (h : alistFind k l = some v) :
    (v :: (alistErase k l).map Prod.snd).Perm (l.map Prod.snd) := by
  induction l with
  | nil => simp [alistFind] at h
  | cons p t ih =>
    obtain ⟨k2, v2⟩ := p
    by_cases hk : k2 = k
    · simp only [alistFind, if_pos hk, Option.some.injEq] at h
      simp only [alistErase, if_pos hk, List.map_cons, h]
      exact List.Perm.refl _
    · simp only [alistFind, if_neg hk] at h
      simp only [alistErase, if_neg hk, List.map_cons]
      exact (List.Perm.swap v2 v _).trans ((ih h).cons v2)

/-! Helper lemmas about the RTP reference count. -/

lemma foldl_applySubOp (ops : List SubOp) (a : Int) :
    ops.foldl applySubOp a = a + countAdds ops - countRemoves ops := by
  induction ops generalizing a with
  | nil => simp [countAdds, countRemoves]
  | cons op t ih =>
    cases op <;>
      simp only [List.foldl_cons, applySubOp, addSubscriber, removeSubscriber,
        countAdds, countRemoves, ih] <;>
      push_cast <;> ring

lemma mem_scanl_applySubOp {c : Int} (ops : List SubOp) (a : Int)
    (hc : c ∈ ops.scanl applySubOp a) :
    ∃ n, n ≤ ops.length ∧
      c = a + countAdds (ops.take n) - countRemoves (ops.take n) := by
  induction ops generalizing a with
  | nil =>
    simp only [List.scanl, List.mem_singleton] at hc
    exact ⟨0, by simp [hc, countAdds, countRemoves]⟩
  | cons op t ih =>
    simp only [List.scanl] at hc
    rcases List.mem_cons.mp hc with h | h
    · exact ⟨0, by simp [h, countAdds, countRemoves]⟩
    · obtain ⟨n, hn, he⟩ := ih (applySubOp a op) h
      refine ⟨n + 1, by simpa using Nat.succ_le_succ hn, ?_⟩
      cases op <;>
        simp only [List.take_succ_cons, countAdds, countRemoves, applySubOp,
          addSubscriber, removeSubscriber] at he ⊢ <;>
        push_cast at he ⊢ <;> omega

/-- C3 counterexample: the claim asserts that for every
AddSubscriber/RemoveSubscriber sequence from a fresh forwarder the
count never becomes negative, but `RemoveSubscriber` decrements
unconditionally: the one-element sequence consisting of a single
RemoveSubscriber call drives the count to -1, and the call returns -1. -/
theorem rtpSubscriberCount_negative_counterexample :
    subCounts [SubOp.remove] = [0, -1] ∧
    (removeSubscriber 0).1 = -1 ∧ (removeSubscriber 0).2 = -1 ∧
    ¬ (0 : Int) ≤ -1 := by decide

/-- C3 (amended): for every sequence of AddSubscriber/RemoveSubscriber
calls from a fresh forwarder, the final count equals adds minus removes
(as an integer), RemoveSubscriber returns the post-update count, and
whenever no prefix of the sequence contains more removes than adds the
observed count stays non-negative throughout; the sequence
add,add,remove,remove yields exactly the counts 0,1,2,1,0. -/
theorem rtpSubscriberCount_correct :
    (∀ ops : List SubOp,
        ops.foldl applySubOp 0 = (countAdds ops : Int) - countRemoves ops)
    ∧ (∀ n : Int, (removeSubscriber n).1 = (removeSubscriber n).2)
    ∧ (∀ ops : List SubOp,
        (∀ n, n ≤ ops.length →
          countRemoves (ops.take n) ≤ countAdds (ops.take n)) →
        ∀ c ∈ subCounts ops, 0 ≤ c)
    ∧ subCounts [SubOp.add, SubOp.add, SubOp.remove, SubOp.remove]
        = [0, 1, 2, 1, 0] := by
  refine ⟨?_, ?_, ?_, by decide⟩
  · intro ops
    simpa using foldl_applySubOp ops 0
  · intro n
    rfl
  · intro ops hpre c hc
    obtain ⟨n, hn, he⟩ := mem_scanl_applySubOp ops 0 hc
    have := hpre n hn
    omega

/-- C3 witness: the non-negativity part applied to the concrete
sequence add,add,remove,remove, whose prefixes all satisfy the
balance condition. -/
theorem rtpSubscriberCount_correct_witness :
    (0 : Int) ≤ 1 ∧
    countRemoves ([SubOp.add, SubOp.add, SubOp.remove, SubOp.remove].take 3)
      ≤ countAdds ([SubOp.add, SubOp.add, SubOp.remove, SubOp.remove].take 3) := by
  constructor
  · exact rtpSubscriberCount_correct.2.2.1
      [SubOp.add, SubOp.add, SubOp.remove, SubOp.remove]
      (by decide) 1 (by decide)
  · decide

/-- C8: starting the push-stream sink for a camera id that is not
registered (no streamer entry, id absent from the camera table)
returns the camera-not-found error and leaves the manager state
entirely unchanged: no process is spawned, no subscription is created,
and the streamer table is untouched. -/
theorem startStream_unregistered_camera (m : RTMPManagerState)
    (cameraID : String) (spawnOk : Bool)
    (hs : alistFind cameraID m.streamers = none)
    (hc : cameraID ∉ m.cameras) :
    startStream m cameraID spawnOk = (some .cameraNotFound, m) := by
  unfold startStream
  rw [hs]
  simp [hc]

/-- C8 witness: a fresh manager with no cameras rejects camera
"cam0" with camera-not-found and is left unchanged. -/
theorem startStream_unregistered_camera_witness :
    startStream
      { cameras := [], capturers := [], streamers := [], frameFeeds := [],
        aliveProcesses := 0, subsCreated := 0 } "cam0" true
      = (some .cameraNotFound,
        { cameras := [], capturers := [], streamers := [], frameFeeds := [],
          aliveProcesses := 0, subsCreated := 0 }) :=
  startStream_unregistered_camera _ "cam0" true (by decide)
    (by simp)

/-- C2 counterexample: the claim says every sink pipeline variant
rejects start(cameraId) when the referenced Capturer exists but is not
running, spawning no transcoding process. The segmented-file manager
(`HLSOutputManager.StartOutput`) performs no such check: on a state
with camera "cam0" registered and its capturer present but not
running, StartOutput succeeds and spawns a transcoding process. -/
theorem hlsStartOutput_ignores_capturer_not_running :
    alistFind "cam0"
      (HLSManagerState.capturers
        { cameras := ["cam0"],
          capturers := [("cam0", { running := false, hasAudio := false })],
          outputs := [], aliveProcesses := 0 })
      = some { running := false, hasAudio := false }
    ∧ (hlsStartOutput
        { cameras := ["cam0"],
          capturers := [("cam0", { running := false, hasAudio := false })],
          outputs := [], aliveProcesses := 0 } "cam0" true).1 = none
    ∧ (hlsStartOutput
        { cameras := ["cam0"],
          capturers := [("cam0", { running := false, hasAudio := false })],
          outputs := [], aliveProcesses := 0 } "cam0" true).2.aliveProcesses
        = 1 := by decide

/-- C2 (amended): the push-stream manager (`Manager.StartStream`)
rejects a start for a registered camera whose capturer exists but is
not running, returning the not-active error and leaving the state
unchanged (no process spawned, no subscription created); the
segmented-file manager (`HLSOutputManager.StartOutput`) performs no
running check on the capturer and starts the output anyway, spawning a
transcoding process. -/
theorem sink_start_capturer_not_running :
    (∀ (m : RTMPManagerState) (cameraID : String) (spawnOk : Bool)
        (info : CapturerInfo),
        (match alistFind cameraID m.streamers with
          | some st => st.running
          | none => false) = false →
        cameraID ∈ m.cameras →
        alistFind cameraID m.capturers = some info →
        info.running = false →
        startStream m cameraID spawnOk = (some .capturerNotActive, m))
    ∧ (∀ (m : HLSManagerState) (cameraID : String) (info : CapturerInfo),
        (match alistFind cameraID m.outputs with
          | some o => o.running
          | none => false) = false →
        cameraID ∈ m.cameras →
        alistFind cameraID m.capturers = some info →
        hlsStartOutput m cameraID true
          = (none,
            { m with outputs := alistInsert cameraID ⟨true⟩ m.outputs,
                     aliveProcesses := m.aliveProcesses + 1 })) := by
  constructor
  · intro m cameraID spawnOk info hstr hcam hinfo hrun
    unfold startStream
    rw [hstr, hinfo]
    simp [hcam, hrun]
  · intro m cameraID info hout hcam hinfo
    unfold hlsStartOutput
    rw [hout, hinfo]
    simp [hcam]

/-- C2 witness: both branches applied to concrete one-camera managers
whose capturer is present but not running. -/
theorem sink_start_capturer_not_running_witness :
    startStream
      { cameras := ["cam0"],
        capturers := [("cam0", { running := false, hasAudio := false })],
        streamers := [], frameFeeds := [], aliveProcesses := 0,
        subsCreated := 0 } "cam0" true
      = (some .capturerNotActive,
        { cameras := ["cam0"],
          capturers := [("cam0", { running := false, hasAudio := false })],
          streamers := [], frameFeeds := [], aliveProcesses := 0,
          subsCreated := 0 })
    ∧ hlsStartOutput
        { cameras := ["cam0"],
          capturers := [("cam0", { running := false, hasAudio := false })],
          outputs := [], aliveProcesses := 0 } "cam0" true
      = (none,
        { cameras := ["cam0"],
          capturers := [("cam0", { running := false, hasAudio := false })],
          outputs := [("cam0", { running := true })], aliveProcesses := 1 }) := by
  constructor
  · exact sink_start_capturer_not_running.1 _ "cam0" true
      { running := false, hasAudio := false } (by decide) (by decide) (by decide)
      rfl
  · exact sink_start_capturer_not_running.2 _ "cam0"
      { running := false, hasAudio := false } (by decide) (by decide) (by decide)

/-- C7: start() on an already-running Capturer returns success without
spawning a second process and leaves the state unchanged (so repeated
calls behave identically), and two sequential push-stream start()
calls for the same camera leave exactly one transcoding process alive:
the first succeeds and spawns one process, the second returns the
already-active error and changes nothing. -/
theorem start_idempotent_single_process :
    (∀ (s : CapturerState) (spawnOk : Bool), s.running = true →
        capturerStart s spawnOk = (.ok, s, false))
    ∧ (∀ (m : RTMPManagerState) (cameraID : String) (info : CapturerInfo),
        alistFind cameraID m.streamers = none →
        cameraID ∈ m.cameras →
        alistFind cameraID m.capturers = some info →
        info.running = true →
        m.aliveProcesses = 0 →
        (startStream m cameraID true).1 = none
        ∧ (startStream m cameraID true).2.aliveProcesses = 1
        ∧ startStream (startStream m cameraID true).2 cameraID true
            = (some .alreadyActive, (startStream m cameraID true).2)) := by
  constructor
  · intro s spawnOk hrun
    unfold capturerStart
    simp [hrun]
  · intro m cameraID info hs hcam hinfo hrun halive
    have h1 : startStream m cameraID true
        = (none,
          { m with
            streamers := alistInsert cameraID ⟨true⟩ m.streamers,
            frameFeeds := cameraID :: m.frameFeeds,
            aliveProcesses := m.aliveProcesses + 1,
            subsCreated := m.subsCreated + (if info.hasAudio then 2 else 1) }) := by
      unfold startStream
      rw [hs, hinfo]
      simp [hcam, hrun]
    refine ⟨by rw [h1], by rw [h1]; simpa using halive ▸ rfl, ?_⟩
    rw [h1]
    unfold startStream
    rw [alistFind_alistInsert_self]
    simp

/-- C7 witness: both parts at concrete inputs: a running capturer, and
a one-camera manager with a running capturer started twice. -/
theorem start_idempotent_single_process_witness :
    capturerStart
      { running := true, lastFrame := none, frameSubscribers := [],
        audioSubscribers := [], nextToken := 0, closedTokens := [] } true
      = (.ok,
        { running := true, lastFrame := none, frameSubscribers := [],
          audioSubscribers := [], nextToken := 0, closedTokens := [] }, false)
    ∧ ((startStream
          { cameras := ["cam0"],
            capturers := [("cam0", { running := true, hasAudio := false })],
            streamers := [], frameFeeds := [], aliveProcesses := 0,
            subsCreated := 0 } "cam0" true).2.aliveProcesses = 1) := by
  constructor
  · exact start_idempotent_single_process.1 _ true rfl
  · exact (start_idempotent_single_process.2 _ "cam0"
      { running := true, hasAudio := false } (by decide) (by decide) (by decide)
      rfl rfl).2.1

/-- C1 counterexample: the claim asserts the drop-oldest-then-admit
policy for both the frame and the audio broadcast. `broadcastAudio`
does not drop the oldest item: on a full audio queue (capacity 100)
the new block is discarded and the queue is unchanged, so the next
item the subscriber observes is the oldest buffered block, not the
newest published one. -/
theorem broadcastAudio_drops_newest_counterexample :
    broadcastAudioToQueue
        { buf := List.replicate audioQueueCap [0], cap := audioQueueCap } [1]
      = { buf := List.replicate audioQueueCap [0], cap := audioQueueCap }
    ∧ (tryRecv (broadcastAudioToQueue
        { buf := List.replicate audioQueueCap [0], cap := audioQueueCap } [1])).2
      = some [0]
    ∧ (List.replicate audioQueueCap ([0] : List Nat)).drop 1 ++ [[1]]
      ≠ List.replicate audioQueueCap [0] := by decide

/-- C1 (amended): for a frame subscriber queue, publishing onto a full
queue drops the oldest buffered frame to admit the new one (so the
newest published frame is at the back of the queue), and only if the
retry still fails (only possible at capacity 0, where the queue stays
empty) is the new frame dropped for that subscriber alone; for an
audio subscriber queue, publishing onto a full queue drops the new
block and leaves the queue unchanged. On a non-full queue both
broadcasts append the new buffer. -/
theorem broadcast_backpressure (q : BoundedQueue) (v : List Nat) :
    (q.buf.length < q.cap →
        broadcastFrameToQueue q v = { q with buf := q.buf ++ [v] }
        ∧ broadcastAudioToQueue q v = { q with buf := q.buf ++ [v] })
    ∧ (q.buf.length = q.cap → 1 ≤ q.cap →
        broadcastFrameToQueue q v = { q with buf := q.buf.tail ++ [v] }
        ∧ (broadcastFrameToQueue q v).buf.getLast? = some v)
    ∧ (q.cap ≤ q.buf.tail.length →
        broadcastFrameToQueue q v = { q with buf := q.buf.tail })
    ∧ (q.cap ≤ q.buf.length → broadcastAudioToQueue q v = q) := by
  obtain ⟨buf, cap⟩ := q
  refine ⟨?_, ?_, ?_, ?_⟩
  · intro h
    constructor <;> simp [broadcastFrameToQueue, broadcastAudioToQueue, trySend, h]
  · intro hfull hcap
    simp only at hfull hcap
    cases buf with
    | nil => simp at hfull; omega
    | cons x t =>
      simp only [List.length_cons] at hfull
      have hns : ¬ (x :: t).length < cap := by simp only [List.length_cons]; omega
      have ht : t.length < cap := by omega
      have hstep : broadcastFrameToQueue ⟨x :: t, cap⟩ v = ⟨t ++ [v], cap⟩ := by
        simp only [broadcastFrameToQueue, trySend, if_neg hns, tryRecv,
          if_pos ht]
      exact ⟨by rw [hstep]; rfl, by rw [hstep]; simp⟩
  · intro h
    cases buf with
    | nil =>
      simp only [List.tail_nil, List.length_nil, Nat.le_zero] at h
      subst h
      have hns : ¬ ([] : List (List Nat)).length < 0 := by simp
      simp only [broadcastFrameToQueue, trySend, if_neg hns, tryRecv,
        List.tail_nil]
    | cons x t =>
      simp only [List.tail_cons] at h
      have hns : ¬ (x :: t).length < cap := by simp only [List.length_cons]; omega
      have hns2 : ¬ t.length < cap := by omega
      simp only [broadcastFrameToQueue, trySend, if_neg hns, tryRecv,
        if_neg hns2, List.tail_cons]
  · intro h
    simp only at h
    have hns : ¬ buf.length < cap := by omega
    simp [broadcastAudioToQueue, trySend, hns]

/-- C1 witness: the amended policy applied to a full capacity-30 frame
queue and a full capacity-100 audio queue. -/
theorem broadcast_backpressure_witness :
    broadcastFrameToQueue
        { buf := List.replicate frameQueueCap [7], cap := frameQueueCap } [9]
      = { buf := (List.replicate frameQueueCap ([7] : List Nat)).tail ++ [[9]],
          cap := frameQueueCap }
    ∧ broadcastAudioToQueue
        { buf := List.replicate audioQueueCap [7], cap := audioQueueCap } [9]
      = { buf := List.replicate audioQueueCap [7], cap := audioQueueCap } := by
  constructor
  · exact (broadcast_backpressure
      { buf := List.replicate frameQueueCap [7], cap := frameQueueCap } [9]).2.1
      (by decide) (by decide) |>.1
  · exact (broadcast_backpressure
      { buf := List.replicate audioQueueCap [7], cap := audioQueueCap } [9]).2.2.2
      (by decide)

/-- C6: getFrame() on a running Capturer returns the cached last frame
when one is present (no temporary subscription); otherwise it creates
a temporary subscription, waits at most the fixed 3-second window,
removes that subscription regardless of outcome (the subscriber table
is restored and the temporary channel is closed exactly once), returns
the arriving frame when one arrives in the window, and returns the
timeout error when none does. -/
theorem getFrame_cached_or_timeout (s : CapturerState)
    (arrival : Option (List Nat)) (hrun : s.running = true)
    (hsnap : alistFind snapshotSubId s.frameSubscribers = none) :
    (∀ f, s.lastFrame = some f →
        getFrame s arrival = (.frame f, ⟨false, false⟩, s))
    ∧ (s.lastFrame = none →
        (getFrame s arrival).2.1 = ⟨true, true⟩
        ∧ (getFrame s arrival).2.2.frameSubscribers = s.frameSubscribers
        ∧ (getFrame s arrival).2.2.closedTokens
            = s.closedTokens ++ [s.nextToken]
        ∧ (arrival = none → (getFrame s arrival).1 = .timeoutError)
        ∧ (∀ f, arrival = some f → (getFrame s arrival).1 = .frame f))
    ∧ getFrameTimeoutSeconds = 3 := by
  have hunsub : unsubscribeFrames snapshotSubId
        (subscribeFrames snapshotSubId s).1
      = { s with nextToken := s.nextToken + 1,
                 closedTokens := s.closedTokens ++ [s.nextToken] } := by
    unfold unsubscribeFrames subscribeFrames
    simp [alistFind_alistInsert_self,
      alistErase_alistInsert_of_find_none _ _ _ hsnap]
  refine ⟨?_, ?_, rfl⟩
  · intro f hf
    unfold getFrame
    rw [hrun, hf]
    rfl
  · intro hnone
    unfold getFrame
    rw [hrun, hnone]
    cases arrival <;> simp [hunsub]

/-- C6 witness: a running capturer with a cached frame returns it, and
a running capturer with no cached frame and no arriving frame returns
the timeout error. -/
theorem getFrame_cached_or_timeout_witness :
    getFrame
      { running := true, lastFrame := some [1], frameSubscribers := [],
        audioSubscribers := [], nextToken := 0, closedTokens := [] } none
      = (.frame [1], ⟨false, false⟩,
        { running := true, lastFrame := some [1], frameSubscribers := [],
          audioSubscribers := [], nextToken := 0, closedTokens := [] })
    ∧ (getFrame
        { running := true, lastFrame := none, frameSubscribers := [],
          audioSubscribers := [], nextToken := 0, closedTokens := [] } none).1
      = .timeoutError := by
  constructor
  · exact (getFrame_cached_or_timeout
      { running := true, lastFrame := some [1], frameSubscribers := [],
        audioSubscribers := [], nextToken := 0, closedTokens := [] }
      none rfl rfl).1 [1] rfl
  · exact ((getFrame_cached_or_timeout
      { running := true, lastFrame := none, frameSubscribers := [],
        audioSubscribers := [], nextToken := 0, closedTokens := [] }
      none rfl rfl).2.1 rfl).2.2.2.1 rfl

/-- C10: getFrame() on a capturer that is not running returns an error
immediately: no temporary subscription is created or removed, the
state is unchanged, and the result is never a frame, even when a
cached last frame is present. -/
theorem getFrame_not_running (s : CapturerState) (arrival : Option (List Nat))
    (hrun : s.running = false) :
    getFrame s arrival = (.notRunningError, ⟨false, false⟩, s)
    ∧ (∀ f, (getFrame s arrival).1 ≠ .frame f) := by
  have h : getFrame s arrival = (.notRunningError, ⟨false, false⟩, s) := by
    unfold getFrame
    rw [hrun]
    rfl
  exact ⟨h, fun f => by rw [h]; simp⟩

/-! Helper lemmas for the close-exactly-once invariant. -/

lemma goodState_initial : GoodState initialCapturer := by
  refine ⟨List.nodup_nil, List.nodup_nil, ?_, ?_, ?_⟩ <;>
    simp [capTokens, initialCapturer]

lemma nextToken_not_mem_capTokens {s : CapturerState} (h : GoodState s) :
    s.nextToken ∉ capTokens s := by
  intro hmem
  exact absurd (h.2.2.2.1 _ hmem) (lt_irrefl _)

lemma nextToken_not_mem_closed {s : CapturerState} (h : GoodState s) :
    s.nextToken ∉ s.closedTokens := by
  intro hmem
  exact absurd (h.2.2.2.2 _ hmem) (lt_irrefl _)

lemma goodState_subscribeFrames (id : String) {s : CapturerState}
    (h : GoodState s) : GoodState (subscribeFrames id s).1 := by
  obtain ⟨hc, hn, hd, hlt, hclt⟩ := h
  have hnotf : s.nextToken ∉ s.frameSubscribers.map Prod.snd := fun hm =>
    nextToken_not_mem_capTokens ⟨hc, hn, hd, hlt, hclt⟩
      (List.mem_append_left _ hm)
  have hnota : s.nextToken ∉ s.audioSubscribers.map Prod.snd := fun hm =>
    nextToken_not_mem_capTokens ⟨hc, hn, hd, hlt, hclt⟩
      (List.mem_append_right _ hm)
  obtain ⟨hfn, han, hdis⟩ := List.nodup_append.mp hn
  refine ⟨hc, ?_, ?_, ?_, ?_⟩
  · refine List.nodup_append.mpr ⟨nodup_snd_alistInsert hfn hnotf, han, ?_⟩
    intro x hx hx2
    rcases mem_snd_alistInsert hx with h2 | h2
    · exact hnota (h2 ▸ hx2)
    · exact hdis h2 hx2
  · intro t ht
    rcases List.mem_append.mp ht with h2 | h2
    · rcases mem_snd_alistInsert h2 with h3 | h3
      · exact h3 ▸ nextToken_not_mem_closed ⟨hc, hn, hd, hlt, hclt⟩
      · exact hd t (List.mem_append_left _ h3)
    · exact hd t (List.mem_append_right _ h2)
  · intro t ht
    rcases List.mem_append.mp ht with h2 | h2
    · rcases mem_snd_alistInsert h2 with h3 | h3
      · exact h3 ▸ Nat.lt_succ_self _
      · exact Nat.lt_succ_of_lt (hlt t (List.mem_append_left _ h3))
    · exact Nat.lt_succ_of_lt (hlt t (List.mem_append_right _ h2))
  · intro t ht
    exact Nat.lt_succ_of_lt (hclt t ht)

lemma goodState_subscribeAudio (id : String) {s : CapturerState}
    (h : GoodState s) : GoodState (subscribeAudio id s).1 := by
  obtain ⟨hc, hn, hd, hlt, hclt⟩ := h
  have hnotf : s.nextToken ∉ s.frameSubscribers.map Prod.snd := fun hm =>
    nextToken_not_mem_capTokens ⟨hc, hn, hd, hlt, hclt⟩
      (List.mem_append_left _ hm)
  have hnota : s.nextToken ∉ s.audioSubscribers.map Prod.snd := fun hm =>
    nextToken_not_mem_capTokens ⟨hc, hn, hd, hlt, hclt⟩
      (List.mem_append_right _ hm)
  obtain ⟨hfn, han, hdis⟩ := List.nodup_append.mp hn
  refine ⟨hc, ?_, ?_, ?_, ?_⟩
  · refine List.nodup_append.mpr ⟨hfn, nodup_snd_alistInsert han hnota, ?_⟩
    intro x hx hx2
    rcases mem_snd_alistInsert hx2 with h2 | h2
    · exact hnotf (h2 ▸ hx)
    · exact hdis hx h2
  · intro t ht
    rcases List.mem_append.mp ht with h2 | h2
    · exact hd t (List.mem_append_left _ h2)
    · rcases mem_snd_alistInsert h2 with h3 | h3
      · exact h3 ▸ nextToken_not_mem_closed ⟨hc, hn, hd, hlt, hclt⟩
      · exact hd t (List.mem_append_right _ h3)
  · intro t ht
    rcases List.mem_append.mp ht with h2 | h2
    · exact Nat.lt_succ_of_lt (hlt t (List.mem_append_left _ h2))
    · rcases mem_snd_alistInsert h2 with h3 | h3
      · exact h3 ▸ Nat.lt_succ_self _
      · exact Nat.lt_succ_of_lt (hlt t (List.mem_append_right _ h3))
  · intro t ht
    exact Nat.lt_succ_of_lt (hclt t ht)

lemma goodState_close_frame {id : String} {tok : Nat} {s : CapturerState}
    (h : GoodState s) (hf : alistFind id s.frameSubscribers = some tok) :
    GoodState
      { s with frameSubscribers := alistErase id s.frameSubscribers,
               closedTokens := s.closedTokens ++ [tok] } := by
  obtain ⟨hc, hn, hd, hlt, hclt⟩ := h
  obtain ⟨hfn, han, hdis⟩ := List.nodup_append.mp hn
  have hperm := perm_cons_alistErase hf
  have hcons : (tok :: (alistErase id s.frameSubscribers).map Prod.snd).Nodup :=
    hperm.nodup_iff.mpr hfn
  have htokE : tok ∉ (alistErase id s.frameSubscribers).map Prod.snd :=
    (List.nodup_cons.mp hcons).1
  have heraseN : ((alistErase id s.frameSubscribers).map Prod.snd).Nodup :=
    (List.nodup_cons.mp hcons).2
  have hsubset : ∀ x ∈ (alistErase id s.frameSubscribers).map Prod.snd,
      x ∈ s.frameSubscribers.map Prod.snd := fun x hx =>
    hperm.subset (List.mem_cons_of_mem _ hx)
  have htokF : tok ∈ s.frameSubscribers.map Prod.snd :=
    hperm.subset (List.mem_cons_self _ _)
  have htokCap : tok ∈ capTokens s := List.mem_append_left _ htokF
  refine ⟨?_, ?_, ?_, ?_, ?_⟩
  · refine List.nodup_append.mpr ⟨hc, List.nodup_singleton tok, ?_⟩
    intro x hx hx2
    rw [List.mem_singleton] at hx2
    exact hd tok htokCap (hx2 ▸ hx)
  · refine List.nodup_append.mpr ⟨heraseN, han, ?_⟩
    intro x hx hx2
    exact hdis (hsubset x hx) hx2
  · intro t ht
    have htcap : t ∈ capTokens s := by
      rcases List.mem_append.mp ht with h2 | h2
      · exact List.mem_append_left _ (hsubset t h2)
      · exact List.mem_append_right _ h2
    intro hmem
    rcases List.mem_append.mp hmem with h2 | h2
    · exact hd t htcap h2
    · rw [List.mem_singleton] at h2
      rcases List.mem_append.mp ht with h3 | h3
      · exact htokE (h2 ▸ h3)
      · exact hdis htokF (h2 ▸ h3)
  · intro t ht
    rcases List.mem_append.mp ht with h2 | h2
    · exact hlt t (List.mem_append_left _ (hsubset t h2))
    · exact hlt t (List.mem_append_right _ h2)
  · intro t ht
    rcases List.mem_append.mp ht with h2 | h2
    · exact hclt t h2
    · rw [List.mem_singleton] at h2
      exact h2 ▸ hlt tok htokCap

lemma goodState_close_audio {id : String} {tok : Nat} {s : CapturerState}
    (h : GoodState s) (hf : alistFind id s.audioSubscribers = some tok) :
    GoodState
      { s with audioSubscribers := alistErase id s.audioSubscribers,
               closedTokens := s.closedTokens ++ [tok] } := by
  obtain ⟨hc, hn, hd, hlt, hclt⟩ := h
  obtain ⟨hfn, han, hdis⟩ := List.nodup_append.mp hn
  have hperm := perm_cons_alistErase hf
  have hcons : (tok :: (alistErase id s.audioSubscribers).map Prod.snd).Nodup :=
    hperm.nodup_iff.mpr han
  have htokE : tok ∉ (alistErase id s.audioSubscribers).map Prod.snd :=
    (List.nodup_cons.mp hcons).1
  have heraseN : ((alistErase id s.audioSubscribers).map Prod.snd).Nodup :=
    (List.nodup_cons.mp hcons).2
  have hsubset : ∀ x ∈ (alistErase id s.audioSubscribers).map Prod.snd,
      x ∈ s.audioSubscribers.map Prod.snd := fun x hx =>
    hperm.subset (List.mem_cons_of_mem _ hx)
  have htokA : tok ∈ s.audioSubscribers.map Prod.snd :=
    hperm.subset (List.mem_cons_self _ _)
  have htokCap : tok ∈ capTokens s := List.mem_append_right _ htokA
  refine ⟨?_, ?_, ?_, ?_, ?_⟩
  · refine List.nodup_append.mpr ⟨hc, List.nodup_singleton tok, ?_⟩
    intro x hx hx2
    rw [List.mem_singleton] at hx2
    exact hd tok htokCap (hx2 ▸ hx)
  · refine List.nodup_append.mpr ⟨hfn, heraseN, ?_⟩
    intro x hx hx2
    exact hdis hx (hsubset x hx2)
  · intro t ht
    have htcap : t ∈ capTokens s := by
      rcases List.mem_append.mp ht with h2 | h2
      · exact List.mem_append_left _ h2
      · exact List.mem_append_right _ (hsubset t h2)
    intro hmem
    rcases List.mem_append.mp hmem with h2 | h2
    · exact hd t htcap h2
    · rw [List.mem_singleton] at h2
      rcases List.mem_append.mp ht with h3 | h3
      · exact hdis (h2 ▸ h3) htokA
      · exact htokE (h2 ▸ h3)
  · intro t ht
    rcases List.mem_append.mp ht with h2 | h2
    · exact hlt t (List.mem_append_left _ h2)
    · exact hlt t (List.mem_append_right _ (hsubset t h2))
  · intro t ht
    rcases List.mem_append.mp ht with h2 | h2
    · exact hclt t h2
    · rw [List.mem_singleton] at h2
      exact h2 ▸ hlt tok htokCap

lemma goodState_unsubscribeFrames (id : String) {s : CapturerState}
    (h : GoodState s) : GoodState (unsubscribeFrames id s) := by
  unfold unsubscribeFrames
  cases hf : alistFind id s.frameSubscribers with
  | none => exact h
  | some tok => exact goodState_close_frame h hf

lemma goodState_unsubscribeAudio (id : String) {s : CapturerState}
    (h : GoodState s) : GoodState (unsubscribeAudio id s) := by
  unfold unsubscribeAudio
  cases hf : alistFind id s.audioSubscribers with
  | none => exact h
  | some tok => exact goodState_close_audio h hf

lemma goodState_capturerStop {s : CapturerState} (h : GoodState s) :
    GoodState (capturerStop s) := by
  obtain ⟨hc, hn, hd, hlt, hclt⟩ := h
  unfold capturerStop
  by_cases hr : s.running = false
  · rw [if_pos hr]
    exact ⟨hc, hn, hd, hlt, hclt⟩
  · rw [if_neg hr]
    refine ⟨?_, ?_, ?_, ?_, ?_⟩
    · rw [List.append_assoc]
      refine List.nodup_append.mpr ⟨hc, hn, ?_⟩
      intro x hx hx2
      exact hd x hx2 hx
    · exact List.nodup_nil
    · intro t ht
      simp [capTokens] at ht
    · intro t ht
      simp [capTokens] at ht
    · intro t ht
      rw [List.append_assoc] at ht
      rcases List.mem_append.mp ht with h2 | h2
      · exact hclt t h2
      · exact hlt t h2

lemma goodState_capturerStart {s : CapturerState} (spawnOk : Bool)
    (h : GoodState s) : GoodState (capturerStart s spawnOk).2.1 := by
  unfold capturerStart
  by_cases hr : s.running
  · simp only [hr, if_pos]
    exact h
  · obtain ⟨hc, hn, hd, hlt, hclt⟩ := h
    cases spawnOk with
    | false => simp only [hr]; exact ⟨hc, hn, hd, hlt, hclt⟩
    | true => simp only [hr]; exact ⟨hc, hn, hd, hlt, hclt⟩

lemma goodState_applyCapOp {s : CapturerState} (op : CapOp)
    (h : GoodState s) : GoodState (applyCapOp s op) := by
  cases op with
  | subFrames id => exact goodState_subscribeFrames id h
  | unsubFrames id => exact goodState_unsubscribeFrames id h
  | subAudio id => exact goodState_subscribeAudio id h
  | unsubAudio id => exact goodState_unsubscribeAudio id h
  | startOp => exact goodState_capturerStart true h
  | stopOp => exact goodState_capturerStop h

lemma goodState_foldl (ops : List CapOp) (s : CapturerState)
    (h : GoodState s) : GoodState (ops.foldl applyCapOp s) := by
  induction ops generalizing s with
  | nil => exact h
  | cons op t ih => exact ih _ (goodState_applyCapOp op h)

/-- C9: stop() on a running capturer closes every registered frame and
audio subscriber queue exactly once (the close log gains exactly the
live tokens and stays duplicate-free) and clears both subscriber
tables; a second stop() is a no-op; unsubscribing an absent id
(including one already unsubscribed) changes nothing; and over every
sequence of subscribe/unsubscribe/start/stop operations from a fresh
capturer, no queue is ever closed twice (the close log is always
duplicate-free). -/
theorem stop_closes_queues_exactly_once :
    (∀ s : CapturerState, GoodState s → s.running = true →
        (capturerStop s).frameSubscribers = []
        ∧ (capturerStop s).audioSubscribers = []
        ∧ (capturerStop s).closedTokens = s.closedTokens ++ capTokens s
        ∧ (capturerStop s).closedTokens.Nodup)
    ∧ (∀ s : CapturerState, capturerStop (capturerStop s) = capturerStop s)
    ∧ (∀ (s : CapturerState) (id : String),
        alistFind id s.frameSubscribers = none → unsubscribeFrames id s = s)
    ∧ (∀ (s : CapturerState) (id : String),
        alistFind id s.audioSubscribers = none → unsubscribeAudio id s = s)
    ∧ (∀ ops : List CapOp, (runCapOps ops).closedTokens.Nodup) := by
  refine ⟨?_, ?_, ?_, ?_, ?_⟩
  · intro s hgood hrun
    have hns : ¬ s.running = false := by rw [hrun]; simp
    have hstop : capturerStop s
        = { s with frameSubscribers := [], audioSubscribers := [],
                   closedTokens := s.closedTokens
                     ++ s.frameSubscribers.map Prod.snd
                     ++ s.audioSubscribers.map Prod.snd,
                   running := false } := by
      unfold capturerStop
      rw [if_neg hns]
    have hclosed := (goodState_capturerStop hgood).1
    refine ⟨by rw [hstop], by rw [hstop], ?_, hclosed⟩
    rw [hstop]
    simp [capTokens, List.append_assoc]
  · intro s
    unfold capturerStop
    by_cases hr : s.running = false
    · rw [if_pos hr, if_pos hr]
    · rw [if_neg hr]
      simp
  · intro s id hf
    unfold unsubscribeFrames
    rw [hf]
  · intro s id hf
    unfold unsubscribeAudio
    rw [hf]
  · intro ops
    exact (goodState_foldl ops initialCapturer goodState_initial).1

/-- C9 witness: a running capturer with one frame subscriber and one
audio subscriber: stop clears both tables and closes both tokens, each
exactly once. -/
theorem stop_closes_queues_exactly_once_witness :
    (capturerStop
        { running := true, lastFrame := none,
          frameSubscribers := [("a", 0)], audioSubscribers := [("b", 1)],
          nextToken := 2, closedTokens := [] }).frameSubscribers = []
    ∧ (capturerStop
        { running := true, lastFrame := none,
          frameSubscribers := [("a", 0)], audioSubscribers := [("b", 1)],
          nextToken := 2, closedTokens := [] }).audioSubscribers = []
    ∧ (capturerStop
        { running := true, lastFrame := none,
          frameSubscribers := [("a", 0)], audioSubscribers := [("b", 1)],
          nextToken := 2, closedTokens := [] }).closedTokens
      = [] ++ capTokens
          { running := true, lastFrame := none,
            frameSubscribers := [("a", 0)], audioSubscribers := [("b", 1)],
            nextToken := 2, closedTokens := [] }
    ∧ (capturerStop
        { running := true, lastFrame := none,
          frameSubscribers := [("a", 0)], audioSubscribers := [("b", 1)],
          nextToken := 2, closedTokens := [] }).closedTokens.Nodup :=
  stop_closes_queues_exactly_once.1
    { running := true, lastFrame := none,
      frameSubscribers := [("a", 0)], audioSubscribers := [("b", 1)],
      nextToken := 2, closedTokens := [] }
    (by refine ⟨?_, ?_, ?_, ?_, ?_⟩ <;> decide) rfl

/-- C10 witness: a stopped capturer with a cached frame still returns
the not-running error. -/
theorem getFrame_not_running_witness :
    getFrame
      { running := false, lastFrame := some [1], frameSubscribers := [],
        audioSubscribers := [], nextToken := 0, closedTokens := [] }
      (some [2])
      = (.notRunningError, ⟨false, false⟩,
        { running := false, lastFrame := some [1], frameSubscribers := [],
          audioSubscribers := [], nextToken := 0, closedTokens := [] }) :=
  (getFrame_not_running _ (some [2]) rfl).1

/-! Helper lemmas about the MJPEG demux. -/

lemma findBytes_some {data pattern : List Nat} {i : Nat}
    (h : findBytes data pattern = some i) :
    (data.drop i).take pattern.length = pattern
    ∧ i + pattern.length ≤ data.length := by
  unfold findBytes at h
  by_cases hc : pattern.length = 0 ∨ data.length < pattern.length
  · rw [if_pos hc] at h
    exact absurd h (by simp)
  · rw [if_neg hc] at h
    push_neg at hc
    have hp := List.find?_some h
    have hm := List.mem_of_find?_eq_some h
    rw [List.mem_range] at hm
    exact ⟨eq_of_beq hp, by omega⟩

lemma findBytes_replicate_zero (n : Nat) :
    findBytes (List.replicate n 0) jpegStart = none := by
  unfold findBytes
  by_cases hc : jpegStart.length = 0
    ∨ (List.replicate n (0 : Nat)).length < jpegStart.length
  · rw [if_pos hc]
  · rw [if_neg hc]
    rw [List.find?_eq_none]
    intro i hi hbeq
    have he := eq_of_beq hbeq
    rw [List.drop_replicate, List.take_replicate] at he
    have hmem : (255 : Nat) ∈ List.replicate (min jpegStart.length (n - i)) 0 := by
      rw [he]
      simp [jpegStart]
    exact absurd (List.eq_of_mem_replicate hmem) (by omega)

lemma parseFrames_no_start {buf : List Nat}
    (h : findBytes buf jpegStart = none) (fuel : Nat) :
    parseFrames fuel buf = ([], buf) := by
  cases fuel with
  | zero => rfl
  | succ f =>
    unfold parseFrames
    rw [h]

lemma frame_shape {buf : List Nat} {s e : Nat}
    (hs : findBytes buf jpegStart = some s)
    (he : findBytes (buf.drop s) jpegEnd = some e) :
    2 ≤ e
    ∧ e + 2 ≤ (buf.drop s).length
    ∧ ((buf.drop s).take (e + 2)).length = e + 2
    ∧ ((buf.drop s).take (e + 2)).take 2 = jpegStart
    ∧ ((buf.drop s).take (e + 2)).drop e = jpegEnd := by
  obtain ⟨hs1, _⟩ := findBytes_some hs
  obtain ⟨he1, he2⟩ := findBytes_some he
  simp only [jpegStart, List.length_cons, List.length_nil] at hs1
  simp only [jpegEnd, List.length_cons, List.length_nil] at he1 he2
  match hL : buf.drop s with
  | [] => rw [hL] at hs1; simp [jpegStart] at hs1
  | [a] => rw [hL] at hs1; simp [jpegStart] at hs1
  | a :: b :: t =>
    rw [hL] at hs1 he1 he2
    simp only [List.take, jpegStart, List.cons.injEq, and_true] at hs1
    obtain ⟨ha, hb⟩ := hs1
    have he2' : e + 2 ≤ (a :: b :: t).length := he2
    have hge : 2 ≤ e := by
      rcases e with _ | _ | e
      · simp only [List.drop, List.take, jpegEnd, List.cons.injEq,
          and_true] at he1
        omega
      · simp only [List.drop, List.take] at he1
        cases t with
        | nil => simp [jpegEnd] at he1
        | cons c t2 =>
          simp only [List.take, jpegEnd, List.cons.injEq, and_true] at he1
          omega
      · omega
    refine ⟨hge, he2', ?_, ?_, ?_⟩
    · rw [List.length_take]
      omega
    · rw [List.take_take]
      have hmin : min 2 (e + 2) = 2 := by omega
      rw [hmin]
      simp only [List.take, jpegStart]
      rw [ha, hb]
    · rw [List.drop_take]
      have harith : e + 2 - e = 2 := by omega
      rw [harith]
      exact he1

lemma parseFrames_frames_shape (fuel : Nat) :
    ∀ buf f : List Nat, f ∈ (parseFrames fuel buf).1 →
      4 ≤ f.length ∧ f.take 2 = jpegStart ∧ f.drop (f.length - 2) = jpegEnd := by
  induction fuel with
  | zero =>
    intro buf f hf
    simp [parseFrames] at hf
  | succ n ih =>
    intro buf f hf
    unfold parseFrames at hf
    cases hs : findBytes buf jpegStart with
    | none =>
      rw [hs] at hf
      simp at hf
    | some s =>
      rw [hs] at hf
      dsimp only at hf
      cases he : findBytes (buf.drop s) jpegEnd with
      | none =>
        rw [he] at hf
        simp at hf
      | some e =>
        rw [he] at hf
        dsimp only at hf
        simp only [List.mem_cons] at hf
        rcases hf with hf | hf
        · obtain ⟨hge, hle, hlen, htake, hdrop⟩ := frame_shape hs he
          subst hf
          refine ⟨by omega, htake, ?_⟩
          rw [hlen]
          have harith : e + 2 - 2 = e := by omega
          rw [harith]
          exact hdrop
        · exact ih _ f hf

lemma parseFrames_complete (fuel : Nat) :
    ∀ buf : List Nat, buf.length ≤ fuel →
      hasCompleteFrame (parseFrames fuel buf).2 = false := by
  induction fuel with
  | zero =>
    intro buf hb
    have hnil : buf = [] := List.eq_nil_of_length_eq_zero (Nat.le_zero.mp hb)
    subst hnil
    rfl
  | succ n ih =>
    intro buf hb
    unfold parseFrames
    cases hs : findBytes buf jpegStart with
    | none => simp [hasCompleteFrame, hs]
    | some s =>
      dsimp only
      cases he : findBytes (buf.drop s) jpegEnd with
      | none => simp [hasCompleteFrame, hs, he]
      | some e =>
        dsimp only
        apply ih
        have hs2 := (findBytes_some hs).2
        simp only [jpegStart, List.length_cons, List.length_nil] at hs2
        rw [List.length_drop]
        omega

lemma processChunk_length_le (frameBuffer chunk : List Nat) :
    ((processChunk frameBuffer chunk).2).length ≤ bufferCeiling := by
  unfold processChunk
  by_cases h : bufferCeiling < (postParse frameBuffer chunk).length
  · simp only [if_pos h, List.length_drop]
    simp only [bufferCeiling, bufferTail] at h ⊢
    omega
  · simp only [if_neg h]
    omega

lemma demux_foldl_le (chunks : List (List Nat)) :
    ∀ b : List Nat, b.length ≤ bufferCeiling →
      (chunks.foldl (fun b c => (processChunk b c).2) b).length
        ≤ bufferCeiling := by
  induction chunks with
  | nil =>
    intro b hb
    simpa using hb
  | cons c t ih =>
    intro b hb
    exact ih _ (processChunk_length_le b c)

/-- C4: feeding FF D8 41 FF D9 FF D8 42 FF D9 through one demux step
emits exactly the two frames FF D8 41 FF D9 and FF D8 42 FF D9 in
order with nothing left in the buffer; in general every frame emitted
by the parse loop is at least four bytes, begins with the two-byte
start marker and ends with the two-byte end marker (the enclosed bytes
of a matched pair inclusive of both markers), and with sufficient fuel
(one unit per emitted frame, buffer length always suffices) the scan
leaves no complete frame in the remaining buffer. -/
theorem mjpeg_demux_frames :
    processChunk [] [0xFF, 0xD8, 0x41, 0xFF, 0xD9, 0xFF, 0xD8, 0x42, 0xFF, 0xD9]
      = ([[0xFF, 0xD8, 0x41, 0xFF, 0xD9], [0xFF, 0xD8, 0x42, 0xFF, 0xD9]], [])
    ∧ (∀ (fuel : Nat) (buf f : List Nat), f ∈ (parseFrames fuel buf).1 →
        4 ≤ f.length ∧ f.take 2 = jpegStart ∧ f.drop (f.length - 2) = jpegEnd)
    ∧ (∀ (fuel : Nat) (buf : List Nat), buf.length ≤ fuel →
        hasCompleteFrame (parseFrames fuel buf).2 = false) :=
  ⟨by decide, fun fuel => parseFrames_frames_shape fuel,
    fun fuel => parseFrames_complete fuel⟩

/-- C4 witness: the frame-shape and completeness parts applied at the
concrete two-frame input. -/
theorem mjpeg_demux_frames_witness :
    (4 ≤ ([0xFF, 0xD8, 0x41, 0xFF, 0xD9] : List Nat).length
      ∧ ([0xFF, 0xD8, 0x41, 0xFF, 0xD9] : List Nat).take 2 = jpegStart
      ∧ ([0xFF, 0xD8, 0x41, 0xFF, 0xD9] : List Nat).drop
          (([0xFF, 0xD8, 0x41, 0xFF, 0xD9] : List Nat).length - 2) = jpegEnd)
    ∧ hasCompleteFrame
        (parseFrames 10
          [0xFF, 0xD8, 0x41, 0xFF, 0xD9, 0xFF, 0xD8, 0x42, 0xFF, 0xD9]).2
      = false :=
  ⟨mjpeg_demux_frames.2.1 10
      [0xFF, 0xD8, 0x41, 0xFF, 0xD9, 0xFF, 0xD8, 0x42, 0xFF, 0xD9]
      [0xFF, 0xD8, 0x41, 0xFF, 0xD9] (by decide),
    mjpeg_demux_frames.2.2 10
      [0xFF, 0xD8, 0x41, 0xFF, 0xD9, 0xFF, 0xD8, 0x42, 0xFF, 0xD9]
      (by decide)⟩

/-- C5: after each chunk-processing step of the video demux, if the
buffer left by the parse loop exceeds the 2MB ceiling it is truncated
to exactly the most recent 1MB tail, and the buffer length at the end
of every step is at most 2MB; consequently over any sequence of read
chunks (in particular a stream with no valid marker pair, where the
parse loop never consumes anything) the working buffer never exceeds
the ceiling. -/
theorem demux_buffer_bounded :
    (∀ frameBuffer chunk : List Nat,
        bufferCeiling < (postParse frameBuffer chunk).length →
        (processChunk frameBuffer chunk).2
          = (postParse frameBuffer chunk).drop
              ((postParse frameBuffer chunk).length - bufferTail)
        ∧ ((processChunk frameBuffer chunk).2).length = bufferTail)
    ∧ (∀ frameBuffer chunk : List Nat,
        ((processChunk frameBuffer chunk).2).length ≤ bufferCeiling)
    ∧ (∀ chunks : List (List Nat),
        (demuxBuffer chunks).length ≤ bufferCeiling) := by
  refine ⟨?_, processChunk_length_le, ?_⟩
  · intro frameBuffer chunk h
    have heq : (processChunk frameBuffer chunk).2
        = (postParse frameBuffer chunk).drop
            ((postParse frameBuffer chunk).length - bufferTail) := by
      unfold processChunk
      rw [if_pos h]
    refine ⟨heq, ?_⟩
    rw [heq, List.length_drop]
    simp only [bufferCeiling, bufferTail] at h ⊢
    omega
  · intro chunks
    exact demux_foldl_le chunks [] (by simp)

lemma postParse_replicate_zero (n : Nat) :
    postParse [] (List.replicate n 0) = List.replicate n 0 := by
  unfold postParse
  rw [List.nil_append,
    parseFrames_no_start (findBytes_replicate_zero _)]

lemma postParse_replicate_zero_long (n : Nat) (h : bufferCeiling < n) :
    bufferCeiling < (postParse [] (List.replicate n 0)).length := by
  rw [postParse_replicate_zero, List.length_replicate]
  exact h

/-- C5 witness: a single chunk of 2MB+1 marker-free bytes is truncated
to exactly the 1MB tail. -/
theorem demux_buffer_bounded_witness :
    ((processChunk [] (List.replicate (bufferCeiling + 1) 0)).2).length
      = bufferTail :=
  (demux_buffer_bounded.1 [] (List.replicate (bufferCeiling + 1) 0)
    (postParse_replicate_zero_long (bufferCeiling + 1)
      (Nat.lt_succ_self bufferCeiling))).2

end HomeMonitor
